import Mathlib

/-!
Verification of the k2s download engine (`src/k2s_downloader`) against its
natural-language specification.

The Python source is shallowly embedded: pure helpers (`parse_size`,
`human_readable_bytes`, `Downloader._build_ranges`) become Lean functions;
the stateful parts of `Downloader._download_once` (the dispatch loop, the
chunk worker, reassembly, the proxy/slot locks) become explicit
state-passing functions or step relations on a state type.  Python's
real-valued arithmetic (`round`, `math.isclose`, `float`) is modelled with
exact rationals (ℚ); every concrete input used in a counterexample or
witness below is one on which IEEE double arithmetic is exact or has a
margin many orders of magnitude wider than the double rounding error, so
the rational model and the float computation agree there.
-/

namespace K2S

/-- Python's built-in `round` with `ndigits = 0` restricted to exact values:
round-half-to-even on the real value.  Used by `Downloader._build_ranges`
(downloader.py lines 455-456) through `int(round(..., 0))`. -/
def pyRound (q : ℚ) : ℤ :=
  if Int.fract q < 1/2 then ⌊q⌋
  else if 1/2 < Int.fract q then ⌊q⌋ + 1
  else if ⌊q⌋ % 2 = 0 then ⌊q⌋ else ⌊q⌋ + 1

/-- One entry of the chunk-range table built by `Downloader._build_ranges`
(downloader.py lines 451-467).  The Python dict keys `"inUse"`,
`"downloaded"`, `"range"` (the string `"start-end"`, kept here as the two
integers `start` and `stop`) and `"bytes"` become fields. -/
structure RangeMeta where
  inUse : Bool
  downloaded : Bool
  start : ℤ
  stop : ℤ
  bytes : ℤ
deriving DecidableEq, Repr

/-- The value `1 + i * total_value / (split_count * 1.0)` from
downloader.py line 455, in exact arithmetic. -/
def rangeStartVal (totalValue : ℕ) (splitCount : ℕ) (i : ℕ) : ℚ :=
  1 + (i : ℚ) * (totalValue : ℚ) / (splitCount : ℚ)

/-- The value `1 + i * total_value / (split_count * 1.0) + total_value /
(split_count * 1.0) - 1` from downloader.py line 456, in exact
arithmetic. -/
def rangeStopVal (totalValue : ℕ) (splitCount : ℕ) (i : ℕ) : ℚ :=
  1 + (i : ℚ) * (totalValue : ℚ) / (splitCount : ℚ)
    + (totalValue : ℚ) / (splitCount : ℚ) - 1

/-- The raw table row for index `i` before the first row is adjusted
(downloader.py lines 454-462). -/
def rawRange (totalValue : ℕ) (splitCount : ℕ) (i : ℕ) : RangeMeta :=
  let s := pyRound (rangeStartVal totalValue splitCount i)
  let e := pyRound (rangeStopVal totalValue splitCount i)
  ⟨false, false, s, e, e - s + 1⟩

/-- The adjustment of the first row (downloader.py lines 463-466): its
start is forced to `0` and its byte count grows by one. -/
def adjustFirst : List RangeMeta → List RangeMeta
  | [] => []
  | r0 :: rest => { r0 with start := 0, bytes := r0.bytes + 1 } :: rest

/-- `Downloader._build_ranges(total_value, split_count)` (downloader.py
lines 451-467).  The Python dict is keyed by the strings `"0"`, `"1"`, ...
in insertion order; it is modelled as the list of rows in index order. -/
def build_ranges (totalValue : ℕ) (splitCount : ℕ) : List RangeMeta :=
  adjustFirst ((List.range splitCount).map (rawRange totalValue splitCount))

/-- Direct description of row `i` of the table; `build_ranges_eq_map`
below proves it equal to `build_ranges`. -/
def rangeAt (totalValue : ℕ) (splitCount : ℕ) (i : ℕ) : RangeMeta :=
  if i = 0 then
    let e := pyRound (rangeStopVal totalValue splitCount 0)
    ⟨false, false, 0, e, e + 1⟩
  else rawRange totalValue splitCount i

/-- The default relative tolerance `1e-09` of `math.isclose`, as an exact
rational.  (The IEEE double closest to `1e-09` differs from it by less
than one part in `10^16`; every use below is at least a factor `1.4` away
from the decision boundary, so the two agree on all inputs used.) -/
def relTolRat : ℚ := 1 / 1000000000

/-- `math.isclose(a, b, abs_tol=1)` on integer arguments, as used for the
chunk-size checks at downloader.py lines 349 and 395: true iff
`|a - b| <= max(1e-09 * max(|a|, |b|), 1)`.  The inequality is stated over
ℤ with both sides scaled by `10^9` so that it is kernel-computable;
`pyIsClose_matches_formula` below proves it equal to the formula exactly
as `math.isclose` states it. -/
def pyIsClose (a b : ℤ) : Bool :=
  decide (1000000000 * |a - b| ≤ max (max |a| |b|) 1000000000)

/-! ### URL cache (`Downloader._cache_urls`, `Downloader.download`) -/

/-- The JSON object persisted in `urls.json`: a mapping from file id to
the list of provisioned URLs, modelled as an association list in key
insertion order (Python dicts preserve insertion order). -/
abbrev UrlCache := List (String × List String)

/-- Python's `data[file_id] = urls` on an insertion-ordered dict (keys are
unique in a dict parsed from JSON): replace the value in place if the key
is present, append the new key at the end otherwise. -/
def dictSet : UrlCache → String → List String → UrlCache
  | [], k, v => [(k, v)]
  | p :: rest, k, v => if p.1 = k then (k, v) :: rest else p :: dictSet rest k v

/-- Python's `data[file_id]` / `data.get(file_id)` on the same dict. -/
def dictLookup : UrlCache → String → Option (List String)
  | [], _ => none
  | p :: rest, k => if p.1 = k then some p.2 else dictLookup rest k

/-- `Downloader._cache_urls(file_id, urls)` (downloader.py lines 232-244):
read the existing cache file if present (`none` models an absent or
unreadable file, which yields the empty dict), set the `file_id` key, and
write the result back. -/
def cache_urls (store : Option UrlCache) (fileId : String) (urls : List String) :
    UrlCache :=
  let data := match store with
    | none => []
    | some d => d
  dictSet data fileId urls

/-- The effect of `Downloader.download` on the URL cache (downloader.py
lines 184-197): if the cache file exists it is unlinked wholesale (lines
184-188; `unlinkOk = false` models the swallowed `OSError`), and then
`_cache_urls` repopulates the file for the current file id. -/
def download_cache_effect (store : Option UrlCache) (unlinkOk : Bool)
    (fileId : String) (urls : List String) : UrlCache :=
  match store with
  | none => cache_urls none fileId urls
  | some d => if unlinkOk then cache_urls none fileId urls else cache_urls (some d) fileId urls

/-! ### `parse_size` and `human_readable_bytes` (downloader.py lines 55-83) -/

/-- The two exception classes that `parse_size` can raise: the explicit
`ValueError` at line 71, and the `KeyError` escaping from the dict lookup
`units[unit]` at line 73 when the unit is not a key of `units`. -/
inductive PyErr where
  | valueError
  | keyError
deriving DecidableEq, Repr

/-- Characters matched by the regex class `[\d\.]` (downloader.py line 69). -/
def isSizeNumChar (c : Char) : Bool :=
  c.isDigit || c = '.'

/-- Decimal value of a digit string (most significant first). -/
def natOfDigits (cs : List Char) : ℕ :=
  cs.foldl (fun acc c => 10 * acc + (c.toNat - '0'.toNat)) 0

/-- Python's `float(s)` on a string of digits and dots (the only shape the
regex group 1 can produce): at most one dot and at least one digit, value
`intpart + fracpart / 10^len(fracpart)`; `none` models the `ValueError`
that `float` raises otherwise. -/
def pyFloatOfNumeric (cs : List Char) : Option ℚ :=
  if cs.count '.' ≤ 1 ∧ cs.any Char.isDigit then
    let ip := cs.takeWhile (fun c => c ≠ '.')
    let fp := (cs.dropWhile (fun c => c ≠ '.')).drop 1
    some ((natOfDigits ip : ℚ) + (natOfDigits fp : ℚ) / (10 : ℚ) ^ fp.length)
  else none

/-- The `units` dict of `parse_size` (downloader.py lines 56-67), in
insertion order.  Note the source's inverted convention: `KB`/`MB`/... are
binary multiples while `KIB`/`MIB`/... are decimal. -/
def sizeUnits : List (String × ℤ) :=
  [("B", 1), ("KB", 2 ^ 10), ("MB", 2 ^ 20), ("GB", 2 ^ 30), ("TB", 2 ^ 40),
   ("", 1), ("KIB", 10 ^ 3), ("MIB", 10 ^ 6), ("GIB", 10 ^ 9), ("TIB", 10 ^ 12)]

/-- The dict lookup `units[unit]` (downloader.py line 73); an absent key
raises `KeyError`. -/
def lookupUnit (u : String) : Except PyErr ℤ :=
  match sizeUnits.lookup u with
  | some v => Except.ok v
  | none => Except.error PyErr.keyError

/-- Python's `int(..)` on a nonnegative rational (truncation toward zero);
both division flavours agree on the nonnegative values reached here, and
the negative case keeps the toward-zero semantics. -/
def pyTrunc (q : ℚ) : ℤ :=
  if q < 0 then -((-q).num / ((-q).den : ℤ)) else q.num / (q.den : ℤ)

/-- Python's `str.strip()`: drop whitespace from both ends. -/
def pyStrip (cs : List Char) : List Char :=
  ((cs.dropWhile Char.isWhitespace).reverse.dropWhile Char.isWhitespace).reverse

/-- `parse_size(size)` (downloader.py lines 55-73).  The anchored regex
`^([\d\.]+)\s*([a-zA-Z]{0,3})$` is decomposed by maximal prefixes: its
three character classes are pairwise disjoint, so a match exists exactly
when the stripped string splits as digits-and-dots, then whitespace, then
at most three letters.  A failed match raises `ValueError` (line 71); an
invalid float literal in group 1 also raises `ValueError`; a unit string
absent from `units` raises `KeyError` (line 73). -/
def parse_size (size : String) : Except PyErr ℤ :=
  let cs := pyStrip size.toList
  let numPart := cs.takeWhile isSizeNumChar
  let rest := cs.dropWhile isSizeNumChar
  let unitPart := rest.dropWhile Char.isWhitespace
  if numPart.isEmpty ∨ ¬ unitPart.all Char.isAlpha ∨ 3 < unitPart.length then
    Except.error PyErr.valueError
  else
    match pyFloatOfNumeric numPart with
    | none => Except.error PyErr.valueError
    | some q =>
      match lookupUnit (String.mk (unitPart.map Char.toUpper)) with
      | Except.error e => Except.error e
      | Except.ok mult => Except.ok (pyTrunc (q * (mult : ℚ)))

/-- Left-pad a string with zeros to width 3 (for the fractional part of a
`%.3f` rendering). -/
def zpad3 (s : String) : String :=
  if s.length ≥ 3 then s else String.mk (List.replicate (3 - s.length) '0') ++ s

/-- Python's `f"{value:3.3f}"` on a nonnegative exact value: three
fractional digits, round-half-to-even, minimum field width 3 (never
triggered, since the shortest rendering `0.000` is already 5 wide). -/
def fmt3f (q : ℚ) : String :=
  let scaled := pyRound (q * 1000)
  let ip := scaled / 1000
  let fp := scaled % 1000
  toString ip ++ "." ++ zpad3 (toString fp)

/-- The loop of `human_readable_bytes` (downloader.py lines 78-83): try
each unit in turn, dividing by 1024. -/
def humanReadableGo : ℚ → List String → String
  | value, [] => fmt3f value ++ " PB"
  | value, unit0 :: units =>
    if value < 1024 then fmt3f value ++ " " ++ unit0
    else humanReadableGo (value / 1024) units

/-- `human_readable_bytes(num)` (downloader.py lines 76-83). -/
def human_readable_bytes (num : ℤ) : String :=
  humanReadableGo (num : ℚ) ["bytes", "KB", "MB", "GB", "TB"]

/-! ### The chunk worker `download_chunk` (downloader.py lines 295-379)

The worker is modelled from the point where the proxy lock has been
acquired (line 320): the state it can touch is the shared
`_bytes_downloaded` counter, the shared `_done_count`, its chunk's table
row, its chunk's part file, and its slot (url) and proxy locks.  Buffered
bytes are tracked by length, which is all the size check at line 349
reads. -/

/-- The slice of state a single worker episode touches. -/
structure WorkerView where
  bytesDownloaded : ℤ
  doneCount : ℕ
  meta : RangeMeta
  partFile : Option ℕ
  urlLockHeld : Bool
  proxyLockHeld : Bool
deriving DecidableEq, Repr

/-- The streaming loop (downloader.py lines 338-346): each received
segment is appended to the buffer and `report_progress(len(data))` adds
its length to the shared counter (`report_progress` ignores a zero delta,
which adds zero either way).  `segments` is the list of segment lengths
the transfer actually delivered before the stream ended, a staleness
timeout fired, or the stop flag was observed. -/
def stream_loop : WorkerView × ℕ → List ℕ → WorkerView × ℕ
  | acc, [] => acc
  | (w, buf), seg :: segs =>
    stream_loop ({ w with bytesDownloaded := w.bytesDownloaded + (seg : ℤ) }, buf + seg) segs

/-- The worker's `finally` block (downloader.py lines 371-379): release
the slot lock and the proxy lock if still held. -/
def worker_finally (w : WorkerView) : WorkerView :=
  { w with urlLockHeld := false, proxyLockHeld := false }

/-- End-of-stream handling (downloader.py lines 348-370): reject the
buffer when `math.isclose(chunk_bytes, expected_bytes, abs_tol=1)` fails —
roll the reported credit back, mark the row not in use, release the slot
lock, return without writing; otherwise write the part file, mark the row
done and bump the done counter. -/
def finish_chunk (w : WorkerView) (buffered : ℕ) : WorkerView :=
  if ¬ pyIsClose (buffered : ℤ) w.meta.bytes then
    worker_finally { w with
      bytesDownloaded := w.bytesDownloaded - (buffered : ℤ),
      meta := { w.meta with inUse := false } }
  else
    worker_finally { w with
      partFile := some buffered,
      meta := { w.meta with inUse := false, downloaded := true },
      doneCount := w.doneCount + 1 }

/-- One full worker episode: stream the delivered segments, then accept or
reject the buffer. -/
def download_chunk (w : WorkerView) (segments : List ℕ) : WorkerView :=
  let r := stream_loop (w, 0) segments
  finish_chunk r.1 r.2

/-! ### One dispatch-loop visit to a chunk (downloader.py lines 385-418) -/

/-- What one visit of the dispatch loop to one chunk row did. -/
structure DispatchOutcome where
  meta : RangeMeta
  part : Option (List ℕ)
  progressDelta : ℤ
  doneDelta : ℕ
  urlLocks : List Bool
  spawned : Option ℕ
deriving DecidableEq, Repr

/-- The slot scan (downloader.py lines 408-411): the first url lock not
currently held, if any. -/
def acquire_slot (urlLocks : List Bool) : Option ℕ :=
  urlLocks.findIdx? (fun b => b = false)

/-- Spawning a worker for a pending chunk (downloader.py lines 408-418):
take the first free slot, lock it, mark the row in use and start a thread
(`spawned = some t`); with every slot busy the chunk just waits. -/
def spawn_for_chunk (meta : RangeMeta) (part : Option (List ℕ)) (urlLocks : List Bool) :
    DispatchOutcome :=
  match acquire_slot urlLocks with
  | none => ⟨meta, part, 0, 0, urlLocks, none⟩
  | some t => ⟨{ meta with inUse := true }, part, 0, 0, urlLocks.set t true, some t⟩

/-- One visit of the dispatch loop to one chunk (downloader.py lines
389-418): skip rows in use or done; accept an existing part file whose
length passes the `isclose` check, crediting `meta.bytes` and bumping the
done counter without spawning; unlink a part file that fails the check and
fall through to spawning a worker. -/
def dispatch_chunk (meta : RangeMeta) (part : Option (List ℕ)) (urlLocks : List Bool) :
    DispatchOutcome :=
  if meta.inUse || meta.downloaded then ⟨meta, part, 0, 0, urlLocks, none⟩
  else
    match part with
    | some content =>
      if pyIsClose (content.length : ℤ) meta.bytes then
        if meta.downloaded = false then
          ⟨{ meta with downloaded := true }, some content, meta.bytes, 1, urlLocks, none⟩
        else spawn_for_chunk meta (some content) urlLocks
      else spawn_for_chunk meta none urlLocks
    | none => spawn_for_chunk meta none urlLocks

/-! ### The dispatch loop, cancellation and reassembly
(downloader.py lines 381-449)

The loop is sequentialised: spawning a worker marks the row in use and
locks the slot, and the spawned thread's own effects are modelled
separately by `download_chunk`.  This is all the cancellation and
reassembly claims read, since a set stop flag is observed before any row
is dispatched. -/

/-- The coordinator state of one `_download_once` attempt. -/
structure LoopState where
  stopEvent : Bool
  ranges : List RangeMeta
  parts : List (Option (List ℕ))
  urlLocks : List Bool
  proxyLocks : List Bool
  bytesDownloaded : ℤ
  doneCount : ℕ
  targetFile : Option (List ℕ)
deriving DecidableEq, Repr

/-- Fold a `DispatchOutcome` for chunk `k` back into the loop state. -/
def apply_outcome (st : LoopState) (k : ℕ) (o : DispatchOutcome) : LoopState :=
  { st with
    ranges := st.ranges.set k o.meta,
    parts := st.parts.set k o.part,
    urlLocks := o.urlLocks,
    bytesDownloaded := st.bytesDownloaded + o.progressDelta,
    doneCount := st.doneCount + o.doneDelta }

/-- Visit chunk `k` (one iteration of the `for idx, meta in ranges.items()`
body, downloader.py lines 385-418). -/
def dispatch_step (st : LoopState) (k : ℕ) : LoopState :=
  match st.ranges[k]? with
  | none => st
  | some meta => apply_outcome st k (dispatch_chunk meta (st.parts.getD k none) st.urlLocks)

/-- One pass of the `for` loop over the chunk table; the stop flag is
checked before every chunk (downloader.py lines 386-388) and aborts the
pass. -/
def dispatch_pass : LoopState → List ℕ → LoopState × Bool
  | st, [] => (st, false)
  | st, k :: ks =>
    if st.stopEvent then (st, true)
    else dispatch_pass (dispatch_step st k) ks

/-- The `while self._done_count < len(ranges)` loop (downloader.py lines
382-419), with explicit fuel standing for the number of polling rounds
actually executed. -/
def dispatch_loop : ℕ → LoopState → Bool → LoopState × Bool
  | 0, st, stop => (st, stop)
  | fuel + 1, st, stop =>
    if st.doneCount < st.ranges.length then
      if stop then (st, stop)
      else
        let r := dispatch_pass st (List.range st.ranges.length)
        dispatch_loop fuel r.1 r.2
    else (st, stop)

/-- How `_download_once` can fail: `DownloadCancelled` (line 434), or the
`FileNotFoundError` escaping from reassembly when a part file is absent
(line 443). -/
inductive DlFailure where
  | cancelled
  | missingPart
deriving DecidableEq, Repr

/-- The coordinator's `finally` (downloader.py lines 423-429): every slot
lock and proxy lock still held is released. -/
def release_all (locks : List Bool) : List Bool :=
  locks.map (fun _ => false)

/-- The reassembly loop (downloader.py lines 440-445): read part files in
ascending index order, append each to the output handle, and unlink each
part as it is consumed; a missing part raises, leaving it and the later
parts in place.  Returns (bytes written, part files afterwards, success). -/
def reassemble_parts : List (Option (List ℕ)) → List ℕ × List (Option (List ℕ)) × Bool
  | [] => ([], [], true)
  | none :: rest => ([], none :: rest, false)
  | some c :: rest =>
    let r := reassemble_parts rest
    (c ++ r.1, none :: r.2.1, r.2.2)

/-- Reassembly including the target-path handling (downloader.py lines
436-445): any pre-existing file at the output path is unlinked and the
path reopened for writing, so the result is independent of `priorTarget`. -/
def reassemble_into_target (_priorTarget : Option (List ℕ))
    (parts : List (Option (List ℕ))) :
    Option (List ℕ) × List (Option (List ℕ)) × Bool :=
  let r := reassemble_parts parts
  (some r.1, r.2.1, r.2.2)

/-- The tail of `_download_once` after the dispatch loop (downloader.py
lines 423-449): run the `finally` release, raise `DownloadCancelled` when
the loop stopped, otherwise reassemble into the target path. -/
def download_once_finish (st : LoopState) (stop : Bool) :
    LoopState × Except DlFailure (List ℕ) :=
  if stop then
    ({ st with
        urlLocks := release_all st.urlLocks
        proxyLocks := release_all st.proxyLocks },
      Except.error DlFailure.cancelled)
  else
    match reassemble_into_target st.targetFile st.parts with
    | (tgt, partsAfter, ok) =>
      if ok then
        ({ st with
            urlLocks := release_all st.urlLocks
            proxyLocks := release_all st.proxyLocks
            targetFile := tgt
            parts := partsAfter },
          Except.ok (tgt.getD []))
      else
        ({ st with
            urlLocks := release_all st.urlLocks
            proxyLocks := release_all st.proxyLocks
            targetFile := tgt
            parts := partsAfter },
          Except.error DlFailure.missingPart)

/-- One sequentialised `_download_once` attempt from the start of the
dispatch loop (downloader.py lines 381-449). -/
def download_once_model (fuel : ℕ) (st : LoopState) :
    LoopState × Except DlFailure (List ℕ) :=
  let r := dispatch_loop fuel st false
  download_once_finish r.1 r.2

/-- The attempt as `Downloader.download` sees it (downloader.py lines
205-208): run `_download_once`, then re-check the stop flag and raise
`DownloadCancelled` even when the attempt returned a path.
`stopSetAfterReturn` models the external `cancel()` arriving in the window
after the dispatch loop's last flag check — any failure from the attempt
itself propagates unchanged. -/
def download_attempt (fuel : ℕ) (st : LoopState) (stopSetAfterReturn : Bool) :
    LoopState × Except DlFailure (List ℕ) :=
  let r := download_once_model fuel st
  match r.2 with
  | Except.error e => (r.1, Except.error e)
  | Except.ok out =>
    if stopSetAfterReturn then (r.1, Except.error DlFailure.cancelled)
    else (r.1, Except.ok out)

/-! ### Proxy-lock protocol as an interleaving transition system
(downloader.py lines 295-326, 371-379, 423-430)

Worker threads and the coordinating loop run concurrently; the model keeps
per-agent control points and lets a scheduler interleave their atomic
steps.  A worker: checks the stop flag on entry (line 298), selects and
atomically acquires a free proxy lock (lines 311-320; `threading.Lock`
semantics make the acquire succeed only on an unheld lock, whatever index
the random scan settled on), uses the endpoint, and finally releases its
own lock if still locked (lines 378-379).  The coordinator: exits the
dispatch loop (on stop or completion) and then force-releases every proxy
lock still held, its holder notwithstanding (lines 427-429). -/

/-- Control point of one worker thread. -/
inductive WPhase where
  | entry
  | selecting
  | holding (i : ℕ)
  | finished
deriving DecidableEq, Repr

/-- Control point of the coordinating loop. -/
inductive CPhase where
  | looping
  | cleanup
  | finished
deriving DecidableEq, Repr

/-- Global state: the stop flag, the proxy-lock array, every worker's
phase and the coordinator's phase. -/
structure LockSys where
  stopEvent : Bool
  locks : List Bool
  workers : List WPhase
  coord : CPhase
deriving DecidableEq, Repr

/-- One atomic step of any agent. -/
inductive LockStep : LockSys → LockSys → Prop where
  | cancel (s : LockSys) :
      LockStep s { s with stopEvent := true }
  | entryStop (s : LockSys) (w : ℕ)
      (hw : s.workers[w]? = some WPhase.entry) (hstop : s.stopEvent = true) :
      LockStep s { s with workers := s.workers.set w WPhase.finished }
  | entryGo (s : LockSys) (w : ℕ)
      (hw : s.workers[w]? = some WPhase.entry) (hstop : s.stopEvent = false) :
      LockStep s { s with workers := s.workers.set w WPhase.selecting }
  | acquire (s : LockSys) (w i : ℕ)
      (hw : s.workers[w]? = some WPhase.selecting) (hi : s.locks[i]? = some false) :
      LockStep s { s with
        locks := s.locks.set i true,
        workers := s.workers.set w (WPhase.holding i) }
  | release (s : LockSys) (w i : ℕ)
      (hw : s.workers[w]? = some (WPhase.holding i)) :
      LockStep s { s with
        locks := s.locks.set i false,
        workers := s.workers.set w WPhase.finished }
  | coordExit (s : LockSys) (hc : s.coord = CPhase.looping) :
      LockStep s { s with coord := CPhase.cleanup }
  | coordForceRelease (s : LockSys) (hc : s.coord = CPhase.cleanup) :
      LockStep s { s with locks := release_all s.locks, coord := CPhase.finished }

/-- States reachable from `s0` by interleaved steps. -/
inductive LockReachable (s0 : LockSys) : LockSys → Prop where
  | refl : LockReachable s0 s0
  | step {s s' : LockSys} : LockReachable s0 s → LockStep s s' → LockReachable s0 s'

/-- Start of an attempt: no stop requested, all proxy locks free, all
workers at their entry check, the coordinator looping. -/
def initLockSys (nLocks nWorkers : ℕ) : LockSys :=
  ⟨false, List.replicate nLocks false, List.replicate nWorkers WPhase.entry, CPhase.looping⟩

/-- At most one worker occupies any proxy endpoint's critical section. -/
def mutualExclusion (s : LockSys) : Prop :=
  ∀ (w1 w2 i : ℕ), s.workers[w1]? = some (WPhase.holding i) →
    s.workers[w2]? = some (WPhase.holding i) → w1 = w2

/-! ### The prelude of `Downloader.download` (downloader.py lines 161-206) -/

/-- Externally visible effects of `Downloader.download` before the first
attempt runs, in program order. -/
inductive DlEffect where
  | proxyRefresh
  | nameLookup
  | cacheUnlink
  | provisionUrls
  | cacheWrite
  | mkdirTmp
  | attemptRun
deriving DecidableEq, Repr

/-- `Downloader.download` down to the first `_download_once` call
(downloader.py lines 161-206): the `split_size` floor check at lines
172-173 runs first and raises `ValueError` with no effect; then the proxy
list is refreshed when empty (network and proxy-cache file I/O), the file
id is extracted (pure; `ValueError` on a malformed URL), the original name
is fetched, the URL cache file is unlinked if present, URLs are
provisioned and cached, the temp dir is created and the attempt starts. -/
def download_prelude (split_size : ℤ) (urlValid proxiesLoaded cacheExists : Bool) :
    Option PyErr × List DlEffect :=
  if split_size < 5 * 1024 * 1024 then (some PyErr.valueError, [])
  else
    let t0 := if proxiesLoaded then [] else [DlEffect.proxyRefresh]
    if urlValid = false then (some PyErr.valueError, t0)
    else (none, t0 ++ [DlEffect.nameLookup]
      ++ (if cacheExists then [DlEffect.cacheUnlink] else [])
      ++ [DlEffect.provisionUrls, DlEffect.cacheWrite, DlEffect.mkdirTmp,
          DlEffect.attemptRun])

/-! ### Statements of spec properties used verbatim by several claims -/

/-- The exact-cover property asserted of the range table: adjacent rows
contiguous, first start `0`, last end `total_size - 1`. -/
def contiguousCover (totalSize splitCount : ℕ) : Prop :=
  (∀ (k : ℕ) (r r' : RangeMeta), (build_ranges totalSize splitCount)[k]? = some r →
      (build_ranges totalSize splitCount)[k + 1]? = some r' → r'.start = r.stop + 1) ∧
  (∀ r : RangeMeta, (build_ranges totalSize splitCount)[0]? = some r → r.start = 0) ∧
  (∀ r : RangeMeta, (build_ranges totalSize splitCount)[splitCount - 1]? = some r →
      r.stop = (totalSize : ℤ) - 1)

/-- A state of the lock protocol in which two workers simultaneously
occupy the critical section of proxy endpoint `0`: worker `0` acquired the
lock and is still streaming, the coordinator's cleanup force-released the
lock, and worker `1` then acquired it. -/
def raceState : LockSys :=
  ⟨true, [true], [WPhase.holding 0, WPhase.holding 0], CPhase.finished⟩

deriving instance DecidableEq for Except

/-! ## Helper lemmas -/

theorem pyRound_intCast (n : ℤ) : pyRound (n : ℚ) = n := by
  rw [pyRound]
  simp [Int.fract_intCast, Int.floor_intCast]

theorem pyRound_natCast (n : ℕ) : pyRound (n : ℚ) = (n : ℤ) := by
  have h := pyRound_intCast (n : ℤ)
  rwa [Int.cast_natCast] at h

theorem floor_le_pyRound (q : ℚ) : ⌊q⌋ ≤ pyRound q := by
  rw [pyRound]
  split
  · exact le_refl _
  · split
    · omega
    · split <;> omega

theorem pyRound_le_floor_add_one (q : ℚ) : pyRound q ≤ ⌊q⌋ + 1 := by
  rw [pyRound]
  split
  · omega
  · split
    · omega
    · split <;> omega

theorem pyRound_one_add (q : ℚ) (h : Int.fract q ≠ 1/2) :
    pyRound (1 + q) = pyRound q + 1 := by
  have hfr : Int.fract (1 + q) = Int.fract q := Int.fract_one_add q
  have hfl : ⌊1 + q⌋ = ⌊q⌋ + 1 := by
    rw [add_comm, Int.floor_add_one]
  rw [pyRound, pyRound, hfr, hfl]
  by_cases h1 : Int.fract q < 1/2
  · rw [if_pos h1, if_pos h1]
  · have h2 : 1/2 < Int.fract q := lt_of_le_of_ne (not_lt.mp h1) (Ne.symm h)
    rw [if_neg h1, if_pos h2, if_neg h1, if_pos h2]

theorem pyRound_one : pyRound (1 : ℚ) = 1 := by
  have h := pyRound_intCast 1
  simpa using h

theorem pyRound_mono {x y : ℚ} (hxy : x ≤ y) : pyRound x ≤ pyRound y := by
  rcases lt_or_eq_of_le (Int.floor_le_floor hxy) with hf | hf
  · have h1 := pyRound_le_floor_add_one x
    have h2 := floor_le_pyRound y
    omega
  · have hfr : Int.fract x ≤ Int.fract y := by
      rw [← Int.self_sub_floor, ← Int.self_sub_floor, hf]
      exact sub_le_sub_right hxy _
    rw [pyRound, pyRound, hf]
    by_cases hx1 : Int.fract x < 1/2
    · rw [if_pos hx1]
      by_cases hy1 : Int.fract y < 1/2
      · rw [if_pos hy1]
      · rw [if_neg hy1]
        by_cases hy2 : 1/2 < Int.fract y
        · rw [if_pos hy2]
          omega
        · rw [if_neg hy2]
          split <;> omega
    · rw [if_neg hx1]
      by_cases hx2 : 1/2 < Int.fract x
      · have hy1 : ¬ Int.fract y < 1/2 := by linarith
        have hy2 : 1/2 < Int.fract y := by linarith
        rw [if_pos hx2, if_neg hy1, if_pos hy2]
      · have hx3 : Int.fract x = 1/2 := le_antisymm (not_lt.mp hx2) (not_lt.mp hx1)
        rw [if_neg hx2]
        by_cases hy1 : Int.fract y < 1/2
        · linarith
        · rw [if_neg hy1]
          by_cases hy2 : 1/2 < Int.fract y
          · rw [if_pos hy2]
            split <;> omega
          · rw [if_neg hy2]

theorem rangeStartVal_zero (t c : ℕ) : rangeStartVal t c 0 = 1 := by
  rw [rangeStartVal]
  push_cast
  ring

theorem rangeStartVal_succ (t c k : ℕ) :
    rangeStartVal t c (k + 1) = 1 + ((k : ℚ) + 1) * (t : ℚ) / (c : ℚ) := by
  rw [rangeStartVal]
  push_cast
  ring

theorem rangeStopVal_eq (t c k : ℕ) (hc : c ≠ 0) :
    rangeStopVal t c k = ((k : ℚ) + 1) * (t : ℚ) / (c : ℚ) := by
  have hc0 : (c : ℚ) ≠ 0 := Nat.cast_ne_zero.mpr hc
  rw [rangeStopVal]
  field_simp
  ring

theorem rangeAt_zero (t c : ℕ) :
    rangeAt t c 0 =
      ⟨false, false, 0, pyRound (rangeStopVal t c 0), pyRound (rangeStopVal t c 0) + 1⟩ := rfl

theorem rangeAt_succ (t c k : ℕ) :
    rangeAt t c (k + 1) = rawRange t c (k + 1) := rfl

theorem adjustFirst_rawRange_zero (t c : ℕ) :
    adjustFirst ((List.range c).map (rawRange t c)) = (List.range c).map (rangeAt t c) := by
  cases c with
  | zero => rfl
  | succ n =>
    rw [List.range_succ_eq_map, List.map_cons, List.map_cons, adjustFirst]
    congr 1
    · rw [rawRange, rangeAt]
      simp only [if_pos rfl]
      rw [rangeStartVal_zero, pyRound_one]
      congr 1
      ring
    · apply List.map_congr_left
      intro a ha
      rcases List.mem_map.mp ha with ⟨b, _, rfl⟩
      rw [rangeAt_succ]

theorem build_ranges_eq_map (t c : ℕ) :
    build_ranges t c = (List.range c).map (rangeAt t c) := by
  rw [build_ranges, adjustFirst_rawRange_zero]

theorem build_ranges_length (t c : ℕ) : (build_ranges t c).length = c := by
  rw [build_ranges_eq_map]
  simp

theorem build_ranges_getElem (t c k : ℕ) (hk : k < c) :
    (build_ranges t c)[k]? = some (rangeAt t c k) := by
  rw [build_ranges_eq_map]
  simp [List.getElem?_map, List.getElem?_range, hk]

theorem build_ranges_getElem_lt (t c k : ℕ) {r : RangeMeta}
    (h : (build_ranges t c)[k]? = some r) : k < c := by
  by_contra hcon
  rw [List.getElem?_eq_none (by rw [build_ranges_length]; omega)] at h
  cases h

theorem rangeAt_pos (t c k : ℕ) (hk : k ≠ 0) : rangeAt t c k = rawRange t c k := by
  rw [rangeAt, if_neg hk]

theorem rangeAt_stop (t c k : ℕ) :
    (rangeAt t c k).stop = pyRound (rangeStopVal t c k) := by
  rw [rangeAt]
  split
  · subst k
    rfl
  · rfl

theorem rangeAt_start_pos (t c k : ℕ) (hk : k ≠ 0) :
    (rangeAt t c k).start = pyRound (rangeStartVal t c k) := by
  rw [rangeAt_pos t c k hk]
  rfl

theorem build_ranges_three_two :
    build_ranges 3 2 = [⟨false, false, 0, 2, 3⟩, ⟨false, false, 2, 3, 2⟩] := by
  have h0 : pyRound (rangeStopVal 3 2 0) = 2 := by
    rw [rangeStopVal, pyRound]
    norm_num [Int.fract]
  have h1 : pyRound (rangeStartVal 3 2 1) = 2 := by
    rw [rangeStartVal, pyRound]
    norm_num [Int.fract]
  have h2 : pyRound (rangeStopVal 3 2 1) = 3 := by
    rw [rangeStopVal, pyRound]
    norm_num [Int.fract]
  rw [build_ranges_eq_map, show List.range 2 = [0, 1] from rfl]
  simp only [List.map_cons, List.map_nil]
  rw [rangeAt_zero, rangeAt_pos 3 2 1 (by decide)]
  simp only [rawRange]
  rw [h0, h1, h2]
  norm_num

theorem build_ranges_hundred_four :
    build_ranges 100 4 =
      [⟨false, false, 0, 25, 26⟩, ⟨false, false, 26, 50, 25⟩,
       ⟨false, false, 51, 75, 25⟩, ⟨false, false, 76, 100, 25⟩] := by
  have hs0 : pyRound (rangeStopVal 100 4 0) = 25 := by
    rw [rangeStopVal, pyRound]
    norm_num [Int.fract]
  have ha1 : pyRound (rangeStartVal 100 4 1) = 26 := by
    rw [rangeStartVal, pyRound]
    norm_num [Int.fract]
  have hs1 : pyRound (rangeStopVal 100 4 1) = 50 := by
    rw [rangeStopVal, pyRound]
    norm_num [Int.fract]
  have ha2 : pyRound (rangeStartVal 100 4 2) = 51 := by
    rw [rangeStartVal, pyRound]
    norm_num [Int.fract]
  have hs2 : pyRound (rangeStopVal 100 4 2) = 75 := by
    rw [rangeStopVal, pyRound]
    norm_num [Int.fract]
  have ha3 : pyRound (rangeStartVal 100 4 3) = 76 := by
    rw [rangeStartVal, pyRound]
    norm_num [Int.fract]
  have hs3 : pyRound (rangeStopVal 100 4 3) = 100 := by
    rw [rangeStopVal, pyRound]
    norm_num [Int.fract]
  rw [build_ranges_eq_map, show List.range 4 = [0, 1, 2, 3] from rfl]
  simp only [List.map_cons, List.map_nil]
  rw [rangeAt_zero, rangeAt_pos 100 4 1 (by decide), rangeAt_pos 100 4 2 (by decide),
    rangeAt_pos 100 4 3 (by decide)]
  simp only [rawRange]
  rw [hs0, ha1, hs1, ha2, hs2, ha3, hs3]
  norm_num

theorem rangeAt_start_nonneg (t c k : ℕ) : 0 ≤ (rangeAt t c k).start := by
  rcases Nat.eq_zero_or_pos k with hk | hk
  · subst hk
    rw [rangeAt_zero]
  · rw [rangeAt_start_pos t c k (by omega)]
    have h1 : (1 : ℚ) ≤ rangeStartVal t c k := by
      rw [rangeStartVal]
      have : 0 ≤ (k : ℚ) * (t : ℚ) / (c : ℚ) := by positivity
      linarith
    have h2 : (1 : ℤ) ≤ ⌊rangeStartVal t c k⌋ := by
      rw [show (1 : ℤ) = ⌊(1 : ℚ)⌋ by norm_num]
      exact Int.floor_le_floor h1
    have h3 := floor_le_pyRound (rangeStartVal t c k)
    omega

theorem rangeAt_start_mono (t c : ℕ) {k k' : ℕ} (h : k ≤ k') :
    (rangeAt t c k).start ≤ (rangeAt t c k').start := by
  rcases Nat.eq_zero_or_pos k with hk | hk
  · subst hk
    rw [rangeAt_zero]
    exact rangeAt_start_nonneg t c k'
  · have hk' : 0 < k' := lt_of_lt_of_le hk h
    rw [rangeAt_start_pos t c k (by omega), rangeAt_start_pos t c k' (by omega)]
    apply pyRound_mono
    rw [rangeStartVal, rangeStartVal]
    have hkk : (k : ℚ) ≤ (k' : ℚ) := by exact_mod_cast h
    have ht : (0 : ℚ) ≤ (t : ℚ) := by positivity
    have hnum : (k : ℚ) * (t : ℚ) ≤ (k' : ℚ) * (t : ℚ) :=
      mul_le_mul_of_nonneg_right hkk ht
    rcases Nat.eq_zero_or_pos c with hc0 | hc0
    · subst hc0
      simp
    · have hcq : (0 : ℚ) < (c : ℚ) := by exact_mod_cast hc0
      have := (div_le_div_iff_of_pos_right hcq).mpr hnum
      linarith

/-- C8: for all `total_size >= 0` and `chunk_count >= 1`, `_build_ranges`
returns exactly `chunk_count` rows in index order, the first row starts at
byte `0`, starts are non-decreasing in the index, and every row's recorded
byte count equals `stop - start + 1` (the first row included, after its
start is shifted to `0` and its byte count bumped). -/
theorem c8_range_table (total count : ℕ) (hc : 1 ≤ count) :
    (build_ranges total count).length = count ∧
    (∀ r : RangeMeta, (build_ranges total count)[0]? = some r → r.start = 0) ∧
    (∀ (k k' : ℕ) (r r' : RangeMeta), (build_ranges total count)[k]? = some r →
      (build_ranges total count)[k']? = some r' → k ≤ k' → r.start ≤ r'.start) ∧
    (∀ (k : ℕ) (r : RangeMeta), (build_ranges total count)[k]? = some r →
      r.bytes = r.stop - r.start + 1) := by
  refine ⟨build_ranges_length total count, ?_, ?_, ?_⟩
  · intro r hr
    rw [build_ranges_getElem total count 0 hc] at hr
    cases hr
    rw [rangeAt_zero]
  · intro k k' r r' hk hk' hle
    have hkc := build_ranges_getElem_lt total count k hk
    have hkc' := build_ranges_getElem_lt total count k' hk'
    rw [build_ranges_getElem total count k hkc] at hk
    rw [build_ranges_getElem total count k' hkc'] at hk'
    cases hk
    cases hk'
    exact rangeAt_start_mono total count hle
  · intro k r hk
    have hkc := build_ranges_getElem_lt total count k hk
    rw [build_ranges_getElem total count k hkc] at hk
    cases hk
    rcases Nat.eq_zero_or_pos k with h0 | h0
    · subst h0
      rw [rangeAt_zero]
      ring
    · rw [rangeAt_pos total count k (by omega), rawRange]

/-- C8 witness: at `total_size = 100`, `chunk_count = 4` the hypothesis
`1 <= 4` holds, the table has four rows, the first row (here row `0` of
the concrete table, per `build_ranges_hundred_four`) starts at `0`, and
row `1` records `50 - 26 + 1` bytes. -/
theorem c8_range_table_witness :
    1 ≤ 4 ∧ (build_ranges 100 4).length = 4 ∧
    RangeMeta.start ⟨false, false, 0, 25, 26⟩ = 0 ∧
    RangeMeta.bytes ⟨false, false, 26, 50, 25⟩ =
      RangeMeta.stop ⟨false, false, 26, 50, 25⟩ -
        RangeMeta.start ⟨false, false, 26, 50, 25⟩ + 1 := by
  refine ⟨by decide, (c8_range_table 100 4 (by decide)).1, ?_, ?_⟩
  · exact (c8_range_table 100 4 (by decide)).2.1 _ (by rw [build_ranges_hundred_four]; rfl)
  · exact (c8_range_table 100 4 (by decide)).2.2.2 1 _ (by rw [build_ranges_hundred_four]; rfl)

/-- C2 counterexample: at `total_size = 3`, `chunk_count = 2` the table is
`[0-2, 2-3]`: row 1 starts at byte 2 while row 0 already ends at byte 2
(a one-byte overlap from the half-integer boundary `3/2`), and the last
row ends at byte `3`, not `total_size - 1 = 2`.  So the ranges do not
cover `[0, total_size)` exactly once. -/
theorem c2_counterexample : ¬ contiguousCover 3 2 := by
  intro h
  obtain ⟨hcont, -, -⟩ := h
  have h0 : (build_ranges 3 2)[0]? = some ⟨false, false, 0, 2, 3⟩ := by
    rw [build_ranges_three_two]; rfl
  have h1 : (build_ranges 3 2)[0 + 1]? = some ⟨false, false, 2, 3, 2⟩ := by
    rw [build_ranges_three_two]; rfl
  have hcontra := hcont 0 _ _ h0 h1
  norm_num at hcontra

/-- C2 amended: in the exact-arithmetic model of the boundary formula, the
first row starts at `0` and the last row ends at byte `total_size` (one
past the last byte index `total_size - 1`, the off-by-one absorbed by the
one-byte tolerance checks); adjacent rows satisfy
`start = previous stop + 1` at every boundary whose ideal value
`(k+1) * total_size / chunk_count` is not an exact half-integer, while a
half-integer boundary produces a one-byte gap or overlap depending on the
parity of its integer part (witnessed by `c2_counterexample`). -/
theorem c2_range_cover_amended (total count : ℕ) (hc : 1 ≤ count) :
    (∀ r : RangeMeta, (build_ranges total count)[0]? = some r → r.start = 0) ∧
    (∀ r : RangeMeta, (build_ranges total count)[count - 1]? = some r →
      r.stop = (total : ℤ)) ∧
    (∀ (k : ℕ) (r r' : RangeMeta), (build_ranges total count)[k]? = some r →
      (build_ranges total count)[k + 1]? = some r' →
      Int.fract (((k : ℚ) + 1) * (total : ℚ) / (count : ℚ)) ≠ 1/2 →
      r'.start = r.stop + 1) := by
  have hcne : count ≠ 0 := by omega
  have hcq : (count : ℚ) ≠ 0 := Nat.cast_ne_zero.mpr hcne
  refine ⟨?_, ?_, ?_⟩
  · intro r hr
    rw [build_ranges_getElem total count 0 hc] at hr
    cases hr
    rw [rangeAt_zero]
  · intro r hr
    rw [build_ranges_getElem total count (count - 1) (by omega)] at hr
    cases hr
    rw [rangeAt_stop, rangeStopVal_eq total count (count - 1) hcne]
    have hcast : ((count - 1 : ℕ) : ℚ) + 1 = (count : ℚ) := by
      have : ((count - 1 : ℕ) : ℚ) = (count : ℚ) - 1 := by
        push_cast [Nat.cast_sub hc]
        ring
      rw [this]
      ring
    rw [hcast, mul_comm, mul_div_assoc, div_self hcq, mul_one]
    exact pyRound_natCast total
  · intro k r r' hk hk' hfr
    have hkc' := build_ranges_getElem_lt total count (k + 1) hk'
    rw [build_ranges_getElem total count k (by omega)] at hk
    rw [build_ranges_getElem total count (k + 1) hkc'] at hk'
    cases hk
    cases hk'
    rw [rangeAt_start_pos total count (k + 1) (by omega), rangeAt_stop,
      rangeStartVal_succ, rangeStopVal_eq total count k hcne]
    exact pyRound_one_add _ hfr

/-- C2 amended witness: at `total_size = 100`, `chunk_count = 4` the
hypothesis `1 <= 4` holds; row 0 starts at `0`, row 3 ends at byte `100`,
and boundary `(0+1) * 100 / 4 = 25` is not a half-integer, so row 1 starts
right after row 0 ends. -/
theorem c2_range_cover_amended_witness :
    1 ≤ 4 ∧
    RangeMeta.start ⟨false, false, 0, 25, 26⟩ = 0 ∧
    RangeMeta.stop ⟨false, false, 76, 100, 25⟩ = (100 : ℤ) ∧
    RangeMeta.start ⟨false, false, 26, 50, 25⟩ =
      RangeMeta.stop ⟨false, false, 0, 25, 26⟩ + 1 := by
  refine ⟨by decide, ?_, ?_, ?_⟩
  · exact (c2_range_cover_amended 100 4 (by decide)).1 _ (by rw [build_ranges_hundred_four]; rfl)
  · exact (c2_range_cover_amended 100 4 (by decide)).2.1 _ (by rw [build_ranges_hundred_four]; rfl)
  · exact (c2_range_cover_amended 100 4 (by decide)).2.2 0 _ _
      (by rw [build_ranges_hundred_four]; rfl) (by rw [build_ranges_hundred_four]; rfl)
      (by norm_num [Int.fract])

theorem dictLookup_dictSet_self (d : UrlCache) (k : String) (v : List String) :
    dictLookup (dictSet d k v) k = some v := by
  induction d with
  | nil => simp [dictSet, dictLookup]
  | cons p ps ih =>
    by_cases hp : p.1 = k
    · rw [dictSet, if_pos hp, dictLookup, if_pos rfl]
    · rw [dictSet, if_neg hp, dictLookup, if_neg hp]
      exact ih

theorem dictLookup_dictSet_ne (d : UrlCache) (k k' : String) (v : List String)
    (hk : k' ≠ k) :
    dictLookup (dictSet d k v) k' = dictLookup d k' := by
  induction d with
  | nil =>
    simp only [dictSet, dictLookup]
    rw [if_neg (fun h => hk h.symm)]
  | cons p ps ih =>
    by_cases hp : p.1 = k
    · rw [dictSet, if_pos hp, dictLookup, dictLookup,
        if_neg (fun h => hk h.symm), if_neg (by rw [hp]; exact fun h => hk h.symm)]
    · rw [dictSet, if_neg hp, dictLookup, dictLookup]
      by_cases hpk : p.1 = k'
      · rw [if_pos hpk, if_pos hpk]
      · rw [if_neg hpk, if_neg hpk]
        exact ih

/-- C1 counterexample: starting from a cache holding an entry for resource
`"a"`, `Downloader.download` caches URLs for resource `"b"` by first
unlinking the whole cache file (downloader.py lines 184-188), so the entry
for `"a"` is lost, and the resulting cache is not the prior mapping with
only key `"b"` replaced. -/
theorem c1_counterexample :
    download_cache_effect (some [("a", ["u"])]) true "b" ["v"] = [("b", ["v"])] ∧
    dictSet [("a", ["u"])] "b" ["v"] = [("a", ["u"]), ("b", ["v"])] ∧
    download_cache_effect (some [("a", ["u"])]) true "b" ["v"] ≠
      dictSet [("a", ["u"])] "b" ["v"] := by
  refine ⟨by decide, by decide, by decide⟩

/-- C1 amended: when `Downloader.download` caches URLs, the prior cache
file has already been unlinked wholesale, so the resulting cache holds
exactly the entry for the current resource identifier, whatever was stored
before; `_cache_urls` in isolation (without the unlink at lines 184-188)
does preserve entries of other resource identifiers and replaces only the
`file_id` key. -/
theorem c1_url_cache_amended (store : Option UrlCache) (fileId : String)
    (urls : List String) (prior : UrlCache) (k : String) (hk : k ≠ fileId) :
    download_cache_effect store true fileId urls = [(fileId, urls)] ∧
    dictLookup (cache_urls (some prior) fileId urls) fileId = some urls ∧
    dictLookup (cache_urls (some prior) fileId urls) k = dictLookup prior k := by
  refine ⟨?_, ?_, ?_⟩
  · cases store with
    | none => rfl
    | some d => rfl
  · exact dictLookup_dictSet_self prior fileId urls
  · exact dictLookup_dictSet_ne prior fileId k urls hk

/-- C1 amended witness: concrete instance with prior entries for `"a"` and
`"b"`, caching resource `"b"`: the download path leaves only `"b"`, while
`_cache_urls` in isolation updates `"b"` and keeps `"a"`. -/
theorem c1_url_cache_amended_witness :
    ("a" : String) ≠ "b" ∧
    download_cache_effect (some [("a", ["u"])]) true "b" ["v"] = [("b", ["v"])] ∧
    dictLookup (cache_urls (some [("a", ["u"]), ("b", ["w"])]) "b" ["v"]) "b" = some ["v"] ∧
    dictLookup (cache_urls (some [("a", ["u"]), ("b", ["w"])]) "b" ["v"]) "a" =
      dictLookup [("a", ["u"]), ("b", ["w"])] "a" := by
  have h := c1_url_cache_amended (some [("a", ["u"])]) "b" ["v"]
    [("a", ["u"]), ("b", ["w"])] "a" (by decide)
  exact ⟨by decide, h.1, h.2.1, h.2.2⟩

/-- C3, evaluated on the code: `parse_size("20M")` raises `KeyError`
because the `units` table (downloader.py lines 56-67) holds no
single-letter keys, while the spec, the CLI default `--split-size 20M`
(cli.py lines 20-25) and the CLI help text all assume `"20M"` is parsed as
20 MiB; `parse_size("20MB")` does return `20 * 2^20`, and
`human_readable_bytes(2^30)` returns `"1.000 GB"` as claimed.  So the
default CLI invocation crashes on its own default value: the `KeyError` is
not caught by the `except ValueError` in cli.py lines 39-42. -/
theorem c3_parse_size_eval :
    parse_size "20M" = Except.error PyErr.keyError ∧
    parse_size "20MB" = Except.ok (20 * 2 ^ 20) ∧
    human_readable_bytes (2 ^ 30) = "1.000 GB" := by
  refine ⟨by rfl, ?_, ?_⟩
  · have h : parse_size "20MB" =
        Except.ok (pyTrunc (((20 : ℚ) + (0 : ℚ) / 1) * ((1048576 : ℤ) : ℚ))) := rfl
    rw [h]
    have h2 : ((20 : ℚ) + (0 : ℚ) / 1) * ((1048576 : ℤ) : ℚ) = (20971520 : ℚ) := by
      norm_num
    rw [h2, pyTrunc, if_neg (by norm_num)]
    norm_num
  · rw [human_readable_bytes]
    rw [show ((2 ^ 30 : ℤ) : ℚ) = 2 ^ 30 by norm_num]
    rw [humanReadableGo, if_neg (by norm_num),
      show ((2 : ℚ) ^ 30 / 1024 : ℚ) = 2 ^ 20 by norm_num]
    rw [humanReadableGo, if_neg (by norm_num),
      show ((2 : ℚ) ^ 20 / 1024 : ℚ) = 2 ^ 10 by norm_num]
    rw [humanReadableGo, if_neg (by norm_num),
      show ((2 : ℚ) ^ 10 / 1024 : ℚ) = 1 by norm_num]
    rw [humanReadableGo, if_pos (by norm_num)]
    rw [fmt3f, show ((1 : ℚ) * 1000) = ((1000 : ℤ) : ℚ) by norm_num, pyRound_intCast]
    rfl

theorem stream_loop_spec (segments : List ℕ) (w : WorkerView) (buf : ℕ) :
    stream_loop (w, buf) segments =
      ({ w with bytesDownloaded := w.bytesDownloaded + (segments.sum : ℤ) },
        buf + segments.sum) := by
  induction segments generalizing w buf with
  | nil => simp [stream_loop]
  | cons seg segs ih =>
    rw [stream_loop, ih]
    have h1 : w.bytesDownloaded + (seg : ℤ) + (segs.sum : ℤ) =
        w.bytesDownloaded + ((seg :: segs).sum : ℤ) := by
      rw [List.sum_cons]
      push_cast
      ring
    have h2 : buf + seg + segs.sum = buf + (seg :: segs).sum := by
      rw [List.sum_cons]
      omega
    rw [h1, h2]

theorem pyIsClose_matches_formula (a b : ℤ) :
    pyIsClose a b =
      decide (|(a : ℚ) - (b : ℚ)| ≤ max (relTolRat * max |(a : ℚ)| |(b : ℚ)|) 1) := by
  rw [pyIsClose, decide_eq_decide, relTolRat]
  have h9 : (0 : ℚ) < 1000000000 := by norm_num
  have hform : 1 / 1000000000 * max |(a : ℚ)| |(b : ℚ)| =
      max |(a : ℚ)| |(b : ℚ)| / 1000000000 := by
    ring
  rw [hform]
  rw [show max (max |(a : ℚ)| |(b : ℚ)| / 1000000000) 1 =
      max (max |(a : ℚ)| |(b : ℚ)|) 1000000000 / 1000000000 by
    rcases le_total (max |(a : ℚ)| |(b : ℚ)|) 1000000000 with hm | hm
    · rw [max_eq_right hm, max_eq_right ((div_le_one h9).mpr hm),
        div_self (ne_of_gt h9)]
    · rw [max_eq_left hm, max_eq_left ((one_le_div h9).mpr hm)]]
  rw [le_div_iff₀ h9]
  constructor
  · intro h
    have hq : ((1000000000 * |a - b| : ℤ) : ℚ) ≤
        ((max (max |a| |b|) 1000000000 : ℤ) : ℚ) := by
      exact_mod_cast h
    push_cast at hq
    linarith
  · intro h
    have hq : ((1000000000 * |a - b| : ℤ) : ℚ) ≤
        ((max (max |a| |b|) 1000000000 : ℤ) : ℚ) := by
      push_cast
      linarith
    exact_mod_cast hq

theorem pyIsClose_of_within_one (a b : ℤ) (h : |a - b| ≤ 1) :
    pyIsClose a b = true := by
  rw [pyIsClose, decide_eq_true_iff]
  calc 1000000000 * |a - b| ≤ 1000000000 * 1 :=
        mul_le_mul_of_nonneg_left h (by norm_num)
    _ = 1000000000 := by norm_num
    _ ≤ max (max |a| |b|) 1000000000 := le_max_right _ _

/-- C4 counterexample: a chunk whose expected size is `3000000000` bytes
(reachable: a single-chunk attempt on a resource of about 3 GB) that
buffers `2999999998` bytes — two bytes short, more than one byte off — is
nevertheless accepted and written to its part file, because
`math.isclose(..., abs_tol=1)` keeps its default `rel_tol=1e-09`, which at
this magnitude allows a three-byte discrepancy. -/
theorem c4_counterexample :
    2999999998 + 1 < (3000000000 : ℤ) ∧
    (download_chunk ⟨0, 0, ⟨true, false, 0, 2999999999, 3000000000⟩, none, true, true⟩
        [2999999998]).partFile = some 2999999998 := by
  constructor
  · decide
  · have hclose : pyIsClose ((2999999998 : ℕ) : ℤ) 3000000000 = true := by
      decide
    rw [download_chunk, stream_loop_spec]
    simp only [List.sum_cons, List.sum_nil, Nat.add_zero, Nat.zero_add]
    rw [finish_chunk]
    simp only [hclose]
    rfl

/-- C4 amended: a worker episode whose buffered length fails the
`math.isclose(chunk_bytes, expected_bytes, abs_tol=1)` check — in
particular any mismatch of more than one byte on chunks below about
`10^9` bytes, where the default `rel_tol=1e-09` term stays under the
`abs_tol=1` floor — never writes a part file, marks the chunk row not in
use (and not downloaded), releases its locks, and rolls back exactly the
progress credit it reported while streaming, leaving the shared
bytes-downloaded counter at its pre-episode value. -/
theorem c4_rejected_chunk_amended (w : WorkerView) (segments : List ℕ)
    (hrej : pyIsClose ((segments.sum : ℕ) : ℤ) w.meta.bytes = false) :
    (download_chunk w segments).partFile = w.partFile ∧
    (download_chunk w segments).meta.inUse = false ∧
    (download_chunk w segments).meta.downloaded = w.meta.downloaded ∧
    (download_chunk w segments).bytesDownloaded = w.bytesDownloaded ∧
    (download_chunk w segments).doneCount = w.doneCount ∧
    (download_chunk w segments).urlLockHeld = false ∧
    (download_chunk w segments).proxyLockHeld = false := by
  rw [download_chunk, stream_loop_spec]
  simp only [Nat.zero_add]
  rw [finish_chunk]
  simp only [hrej, Bool.false_eq_true, not_false_eq_true, if_pos]
  rw [worker_finally]
  refine ⟨rfl, rfl, rfl, ?_, rfl, rfl, rfl⟩
  simp

/-- C4 witness: expected `5` bytes, a single delivered segment of `3`
bytes (two short — outside the tolerance at this size), starting from a
counter of `7`: nothing is written, the row is pending again and the
counter is back at `7`. -/
theorem c4_rejected_chunk_amended_witness :
    pyIsClose ((([3] : List ℕ).sum : ℕ) : ℤ)
      (WorkerView.meta ⟨7, 2, ⟨true, false, 0, 4, 5⟩, none, true, true⟩).bytes = false ∧
    (download_chunk ⟨7, 2, ⟨true, false, 0, 4, 5⟩, none, true, true⟩ [3]).partFile = none ∧
    (download_chunk ⟨7, 2, ⟨true, false, 0, 4, 5⟩, none, true, true⟩ [3]).bytesDownloaded = 7 ∧
    (download_chunk ⟨7, 2, ⟨true, false, 0, 4, 5⟩, none, true, true⟩ [3]).meta.inUse = false := by
  have hrej : pyIsClose ((([3] : List ℕ).sum : ℕ) : ℤ)
      (WorkerView.meta ⟨7, 2, ⟨true, false, 0, 4, 5⟩, none, true, true⟩).bytes = false := by
    decide
  have h := c4_rejected_chunk_amended ⟨7, 2, ⟨true, false, 0, 4, 5⟩, none, true, true⟩ [3] hrej
  exact ⟨hrej, h.1, h.2.2.2.1, h.2.1⟩

/-- C5 counterexample: a pending chunk whose expected size is
`3000000000` bytes finds a part file of `2999999998` bytes on disk — more
than one byte off — yet the dispatch loop does not delete it and does not
fetch the chunk: the `isclose` check's `rel_tol=1e-09` term accepts the
file and the chunk is credited as done without any network request. -/
theorem c5_counterexample :
    2999999998 + 1 < (3000000000 : ℤ) ∧
    (dispatch_chunk ⟨false, false, 0, 2999999999, 3000000000⟩
        (some (List.replicate 2999999998 0)) [false]).part =
      some (List.replicate 2999999998 0) ∧
    (dispatch_chunk ⟨false, false, 0, 2999999999, 3000000000⟩
        (some (List.replicate 2999999998 0)) [false]).spawned = none ∧
    (dispatch_chunk ⟨false, false, 0, 2999999999, 3000000000⟩
        (some (List.replicate 2999999998 0)) [false]).progressDelta = 3000000000 := by
  have hlen : ((List.replicate 2999999998 (0 : ℕ)).length : ℤ) = 2999999998 := by
    rw [List.length_replicate]
    rfl
  have hclose : pyIsClose ((List.replicate 2999999998 (0 : ℕ)).length : ℤ) 3000000000 = true := by
    rw [hlen]
    decide
  refine ⟨by decide, ?_, ?_, ?_⟩ <;>
    · rw [dispatch_chunk]
      simp only [Bool.or_self, Bool.false_eq_true, if_neg, hclose, if_pos, if_true]
      rfl

/-- C5 amended: a pending, not-yet-downloaded chunk whose on-disk part
file passes the `math.isclose(len, expected, abs_tol=1)` check — which
every length within one byte of expected does — is marked done and
credited with its full expected byte count, with no slot acquired and no
worker spawned; a part file outside the tolerance (more than one byte off
only below about `10^9` bytes, by `c5_counterexample`) is deleted and the
chunk is dispatched to a worker exactly as if no part file existed. -/
theorem c5_resume_amended (meta : RangeMeta) (content : List ℕ)
    (urlLocks : List Bool) (hpend : meta.inUse = false)
    (hnd : meta.downloaded = false) :
    (∀ a b : ℤ, |a - b| ≤ 1 → pyIsClose a b = true) ∧
    (pyIsClose (content.length : ℤ) meta.bytes = true →
      dispatch_chunk meta (some content) urlLocks =
        ⟨{ meta with downloaded := true }, some content, meta.bytes, 1, urlLocks, none⟩) ∧
    (pyIsClose (content.length : ℤ) meta.bytes = false →
      dispatch_chunk meta (some content) urlLocks =
        spawn_for_chunk meta none urlLocks) := by
  refine ⟨pyIsClose_of_within_one, ?_, ?_⟩
  · intro hclose
    rw [dispatch_chunk, if_neg (by rw [hpend, hnd]; simp), hclose]
    rw [if_pos rfl, if_pos hnd]
  · intro hfar
    rw [dispatch_chunk, if_neg (by rw [hpend, hnd]; simp), hfar]
    rw [if_neg (by simp)]

/-- C5 witness: expected `10` bytes.  A 10-byte part file is accepted and
credited in full without spawning; a 12-byte part file is deleted and the
chunk dispatched to slot `0`. -/
theorem c5_resume_amended_witness :
    pyIsClose ((List.replicate 10 (7 : ℕ)).length : ℤ)
      (RangeMeta.bytes ⟨false, false, 0, 9, 10⟩) = true ∧
    dispatch_chunk ⟨false, false, 0, 9, 10⟩ (some (List.replicate 10 7)) [false] =
      ⟨⟨false, true, 0, 9, 10⟩, some (List.replicate 10 7), 10, 1, [false], none⟩ ∧
    pyIsClose ((List.replicate 12 (7 : ℕ)).length : ℤ)
      (RangeMeta.bytes ⟨false, false, 0, 9, 10⟩) = false ∧
    dispatch_chunk ⟨false, false, 0, 9, 10⟩ (some (List.replicate 12 7)) [false] =
      spawn_for_chunk ⟨false, false, 0, 9, 10⟩ none [false] := by
  have hgood : pyIsClose ((List.replicate 10 (7 : ℕ)).length : ℤ)
      (RangeMeta.bytes ⟨false, false, 0, 9, 10⟩) = true := by
    decide
  have hbad : pyIsClose ((List.replicate 12 (7 : ℕ)).length : ℤ)
      (RangeMeta.bytes ⟨false, false, 0, 9, 10⟩) = false := by
    decide
  have h := c5_resume_amended ⟨false, false, 0, 9, 10⟩ (List.replicate 10 7) [false] rfl rfl
  have h' := c5_resume_amended ⟨false, false, 0, 9, 10⟩ (List.replicate 12 7) [false] rfl rfl
  exact ⟨hgood, h.2.1 hgood, hbad, h'.2.2 hbad⟩

theorem dispatch_pass_stop (st : LoopState) (hstop : st.stopEvent = true)
    (k : ℕ) (ks : List ℕ) : dispatch_pass st (k :: ks) = (st, true) := by
  rw [dispatch_pass, if_pos hstop]

theorem dispatch_loop_of_stop (fuel : ℕ) (st : LoopState) :
    dispatch_loop fuel st true = (st, true) := by
  cases fuel with
  | zero => rfl
  | succ n =>
    rw [dispatch_loop]
    split
    · rw [if_pos rfl]
    · rfl

theorem dispatch_loop_stopEvent (fuel : ℕ) (st : LoopState)
    (hstop : st.stopEvent = true) (hne : st.doneCount < st.ranges.length)
    (hfuel : 1 ≤ fuel) : dispatch_loop fuel st false = (st, true) := by
  obtain ⟨n, rfl⟩ : ∃ n, fuel = n + 1 := ⟨fuel - 1, by omega⟩
  rw [dispatch_loop, if_pos hne, if_neg (by simp)]
  obtain ⟨m, hm⟩ : ∃ m, st.ranges.length = m + 1 := ⟨st.ranges.length - 1, by omega⟩
  rw [hm, List.range_succ_eq_map, dispatch_pass_stop st hstop]
  exact dispatch_loop_of_stop n st

theorem downloadOnce_stop_observed (fuel : ℕ) (st : LoopState)
    (hstop : st.stopEvent = true) (hne : st.doneCount < st.ranges.length)
    (hfuel : 1 ≤ fuel) :
    download_once_model fuel st =
      ({ st with
          urlLocks := release_all st.urlLocks
          proxyLocks := release_all st.proxyLocks },
        Except.error DlFailure.cancelled) := by
  rw [download_once_model, dispatch_loop_stopEvent fuel st hstop hne hfuel,
    download_once_finish, if_pos rfl]

theorem reassemble_into_target_fst (t : Option (List ℕ))
    (parts : List (Option (List ℕ))) :
    (reassemble_into_target t parts).1 = some (reassemble_parts parts).1 := rfl

theorem download_once_ok_targetFile (fuel : ℕ) (st st' : LoopState) (out : List ℕ)
    (h : download_once_model fuel st = (st', Except.ok out)) :
    st'.targetFile = some out := by
  rw [download_once_model] at h
  set s1 := (dispatch_loop fuel st false).1 with hs1
  set stop := (dispatch_loop fuel st false).2 with hstop2
  rw [download_once_finish] at h
  by_cases hs : stop = true
  · rw [if_pos hs] at h
    rw [Prod.mk.injEq] at h
    cases h.2
  · rw [if_neg hs] at h
    rcases hr : reassemble_into_target s1.targetFile s1.parts with ⟨tgt, partsAfter, ok2⟩
    have htgt : tgt = some (reassemble_parts s1.parts).1 := by
      have := reassemble_into_target_fst s1.targetFile s1.parts
      rw [hr] at this
      exact this
    rw [hr] at h
    dsimp only at h
    by_cases hok2 : ok2 = true
    · rw [if_pos hok2] at h
      rw [Prod.mk.injEq] at h
      have hval := Except.ok.inj h.2
      rw [← h.1]
      show tgt = some out
      rw [htgt] at hval ⊢
      simp only [Option.getD_some] at hval
      rw [hval]
    · rw [if_neg hok2] at h
      rw [Prod.mk.injEq] at h
      cases h.2

/-- C6 counterexample: the stop flag can be set during the run but after
the dispatch loop's last flag check — here a one-chunk attempt that
completes instantly from a valid on-disk part file, with `cancel()`
arriving in the window before `Downloader.download` re-checks the flag
(downloader.py lines 205-208).  The call does raise `DownloadCancelled`,
but the reassembled output has already been written to the final
destination path, refuting the claim that no file is written there. -/
theorem c6_counterexample :
    (download_attempt 2
        ⟨false, [⟨false, false, 0, 4, 5⟩], [some [1, 2, 3, 4, 5]], [false], [false],
          0, 0, none⟩ true).2 = Except.error DlFailure.cancelled ∧
    (download_attempt 2
        ⟨false, [⟨false, false, 0, 4, 5⟩], [some [1, 2, 3, 4, 5]], [false], [false],
          0, 0, none⟩ true).1.targetFile = some [1, 2, 3, 4, 5] := by
  constructor
  · decide
  · decide

/-- C6 amended: when the stop flag is set early enough for the dispatch
loop to observe it (any time before the last per-chunk flag check), the
attempt raises `DownloadCancelled` instead of returning a path, the
`finally` leaves every slot (url) lock and every proxy lock unlocked,
nothing is written to the final destination path and the part files stay
in place for a future resume.  When the flag is set only after the last
chunk completed, `Downloader.download` still raises `DownloadCancelled`
(lines 207-208) — but the finished output file has by then been written to
the destination path (`c6_counterexample`). -/
theorem c6_cancellation_amended (fuel : ℕ) (st : LoopState)
    (hstop : st.stopEvent = true) (hne : st.doneCount < st.ranges.length)
    (hfuel : 1 ≤ fuel) :
    (∀ lateFlag : Bool,
      (download_attempt fuel st lateFlag).2 = Except.error DlFailure.cancelled ∧
      (∀ b, b ∈ (download_attempt fuel st lateFlag).1.urlLocks → b = false) ∧
      (∀ b, b ∈ (download_attempt fuel st lateFlag).1.proxyLocks → b = false) ∧
      (download_attempt fuel st lateFlag).1.targetFile = st.targetFile ∧
      (download_attempt fuel st lateFlag).1.parts = st.parts) ∧
    (∀ (fuel2 : ℕ) (st2 st2' : LoopState) (out : List ℕ),
      download_once_model fuel2 st2 = (st2', Except.ok out) →
      (download_attempt fuel2 st2 true).2 = Except.error DlFailure.cancelled ∧
      (download_attempt fuel2 st2 true).1.targetFile = some out) := by
  constructor
  · intro lateFlag
    have hobs := downloadOnce_stop_observed fuel st hstop hne hfuel
    have hatt : download_attempt fuel st lateFlag =
        ({ st with
            urlLocks := release_all st.urlLocks
            proxyLocks := release_all st.proxyLocks },
          Except.error DlFailure.cancelled) := by
      rw [download_attempt, hobs]
    rw [hatt]
    refine ⟨rfl, ?_, ?_, rfl, rfl⟩
    · intro b hb
      rw [release_all] at hb
      obtain ⟨a, -, ha⟩ := List.mem_map.mp hb
      exact ha.symm
    · intro b hb
      rw [release_all] at hb
      obtain ⟨a, -, ha⟩ := List.mem_map.mp hb
      exact ha.symm
  · intro fuel2 st2 st2' out hok
    have htf := download_once_ok_targetFile fuel2 st2 st2' out hok
    have hatt : download_attempt fuel2 st2 true =
        (st2', Except.error DlFailure.cancelled) := by
      rw [download_attempt, hok]
      rfl
    rw [hatt]
    exact ⟨rfl, htf⟩

/-- C6 amended witness: a one-chunk attempt with the stop flag observed
(set from the start), one slot lock and one proxy lock held: the attempt
fails with the cancellation error, both lock arrays end up all unlocked
and the target path still holds nothing; and the late-cancel clause
applied to the completed one-chunk attempt yields the cancellation failure
with the output file written. -/
theorem c6_cancellation_amended_witness :
    LoopState.stopEvent ⟨true, [⟨false, false, 0, 4, 5⟩], [none], [true, false], [true], 0, 0,
      none⟩ = true ∧
    (download_attempt 3 ⟨true, [⟨false, false, 0, 4, 5⟩], [none], [true, false], [true], 0, 0,
      none⟩ false).2 = Except.error DlFailure.cancelled ∧
    (download_attempt 3 ⟨true, [⟨false, false, 0, 4, 5⟩], [none], [true, false], [true], 0, 0,
      none⟩ false).1.targetFile = none ∧
    (download_attempt 2
        ⟨false, [⟨false, false, 0, 4, 5⟩], [some [1, 2, 3, 4, 5]], [false], [false],
          0, 0, none⟩ true).1.targetFile = some [1, 2, 3, 4, 5] := by
  have h := c6_cancellation_amended 3
    ⟨true, [⟨false, false, 0, 4, 5⟩], [none], [true, false], [true], 0, 0, none⟩
    rfl (by decide) (by decide)
  have hlate := h.2 2
    ⟨false, [⟨false, false, 0, 4, 5⟩], [some [1, 2, 3, 4, 5]], [false], [false],
      0, 0, none⟩
    ((download_once_model 2
      ⟨false, [⟨false, false, 0, 4, 5⟩], [some [1, 2, 3, 4, 5]], [false], [false],
        0, 0, none⟩).1) [1, 2, 3, 4, 5] (by decide)
  exact ⟨rfl, (h.1 false).1, (h.1 false).2.2.2.1, hlate.2⟩

theorem reassemble_parts_all_present (cs : List (List ℕ)) :
    reassemble_parts (cs.map some) = (cs.flatten, cs.map (fun _ => none), true) := by
  induction cs with
  | nil => rfl
  | cons c rest ih =>
    rw [List.map_cons, reassemble_parts, ih]
    rw [List.flatten_cons, List.map_cons]

/-- C7: once every chunk has a part file (contents listed in ascending
chunk-index order, the order the zero-padded part names enumerate),
reassembly writes exactly the index-ordered concatenation of the part
files to the output path, deletes every part file as it is consumed, and
succeeds; any pre-existing file at the output path is deleted first, so
the result does not depend on it — and it depends only on the indexed
contents, not on the order in which the chunks had completed. -/
theorem c7_reassembly (contents : List (List ℕ)) (priorTarget : Option (List ℕ)) :
    reassemble_into_target priorTarget (contents.map some) =
      (some contents.flatten, contents.map (fun _ => none), true) := by
  rw [reassemble_into_target, reassemble_parts_all_present]

/-- C10: `Downloader.download` checks `split_size < 5 * 1024 * 1024`
before anything else (downloader.py lines 172-173): any smaller value
raises `ValueError` with an empty effect trace — no proxy refresh, no name
lookup, no URL-cache unlink or write, no provisioning, no directory
creation and no attempt — whatever the state of the proxies, the cache
file or the URL.  The spec states no lower bound on bytes-per-chunk, but
the public interface enforces this 5 MiB floor. -/
theorem c10_split_size_floor (split : ℤ) (urlValid proxiesLoaded cacheExists : Bool)
    (h : split < 5 * 1024 * 1024) :
    download_prelude split urlValid proxiesLoaded cacheExists =
      (some PyErr.valueError, []) := by
  rw [download_prelude, if_pos h]

/-- C10 witness: `split_size = 4 MiB` is below the floor; the call fails
with `ValueError` and an empty effect trace even with no proxies loaded
and an existing cache file. -/
theorem c10_split_size_floor_witness :
    (4194304 : ℤ) < 5 * 1024 * 1024 ∧
    download_prelude 4194304 true false true = (some PyErr.valueError, []) :=
  ⟨by decide, c10_split_size_floor 4194304 true false true (by decide)⟩

theorem getElem?_set_cases {α : Type} {l : List α} {w w' : ℕ} {x y : α}
    (h : (l.set w x)[w']? = some y) :
    (w = w' ∧ y = x) ∨ (w ≠ w' ∧ l[w']? = some y) := by
  by_cases hww : w = w'
  · subst hww
    left
    refine ⟨rfl, ?_⟩
    have hlt : w < (l.set w x).length := (List.getElem?_eq_some.mp h).1
    rw [List.length_set] at hlt
    rw [List.getElem?_set_eq_of_lt _ hlt] at h
    exact (Option.some.inj h).symm
  · right
    rw [List.getElem?_set_ne hww] at h
    exact ⟨hww, h⟩

theorem lockSys_inv (nLocks nWorkers : ℕ) (s : LockSys)
    (h : LockReachable (initLockSys nLocks nWorkers) s) :
    s.coord = CPhase.looping →
      (∀ (w i : ℕ), s.workers[w]? = some (WPhase.holding i) →
        s.locks[i]? = some true) ∧
      mutualExclusion s := by
  induction h with
  | refl =>
    intro _
    constructor
    · intro w i hw
      simp [initLockSys, List.getElem?_replicate] at hw
    · intro w1 w2 i h1 h2
      simp [initLockSys, List.getElem?_replicate] at h1
  | step hr hstep ih =>
    cases hstep with
    | cancel =>
      intro hc
      exact ih hc
    | entryStop w hw hstop =>
      intro hc
      obtain ⟨ih1, ih2⟩ := ih hc
      constructor
      · intro w' i' hw'
        rcases getElem?_set_cases hw' with ⟨-, heq⟩ | ⟨-, hold⟩
        · cases heq
        · exact ih1 w' i' hold
      · intro w1 w2 i hh1 hh2
        rcases getElem?_set_cases hh1 with ⟨-, heq⟩ | ⟨-, hold1⟩
        · cases heq
        · rcases getElem?_set_cases hh2 with ⟨-, heq⟩ | ⟨-, hold2⟩
          · cases heq
          · exact ih2 w1 w2 i hold1 hold2
    | entryGo w hw hstop =>
      intro hc
      obtain ⟨ih1, ih2⟩ := ih hc
      constructor
      · intro w' i' hw'
        rcases getElem?_set_cases hw' with ⟨-, heq⟩ | ⟨-, hold⟩
        · cases heq
        · exact ih1 w' i' hold
      · intro w1 w2 i hh1 hh2
        rcases getElem?_set_cases hh1 with ⟨-, heq⟩ | ⟨-, hold1⟩
        · cases heq
        · rcases getElem?_set_cases hh2 with ⟨-, heq⟩ | ⟨-, hold2⟩
          · cases heq
          · exact ih2 w1 w2 i hold1 hold2
    | acquire w i hw hi =>
      intro hc
      obtain ⟨ih1, ih2⟩ := ih hc
      have hilt := (List.getElem?_eq_some.mp hi).1
      constructor
      · intro w' i' hw'
        rcases getElem?_set_cases hw' with ⟨-, heq⟩ | ⟨-, hold⟩
        · have hii : i' = i := by
            cases heq
            rfl
          subst hii
          exact List.getElem?_set_eq_of_lt _ hilt
        · have hold' := ih1 w' i' hold
          by_cases hieq : i = i'
          · subst hieq
            exact List.getElem?_set_eq_of_lt _ hilt
          · rw [List.getElem?_set_ne hieq]
            exact hold'
      · intro w1 w2 i' hh1 hh2
        rcases getElem?_set_cases hh1 with ⟨hw1, heq1⟩ | ⟨hw1, hold1⟩
        · rcases getElem?_set_cases hh2 with ⟨hw2, heq2⟩ | ⟨hw2, hold2⟩
          · rw [← hw1, ← hw2]
          · have hii : i' = i := by
              cases heq1
              rfl
            subst hii
            have := ih1 w2 i' hold2
            rw [hi] at this
            cases this
        · rcases getElem?_set_cases hh2 with ⟨hw2, heq2⟩ | ⟨hw2, hold2⟩
          · have hii : i' = i := by
              cases heq2
              rfl
            subst hii
            have := ih1 w1 i' hold1
            rw [hi] at this
            cases this
          · exact ih2 w1 w2 i' hold1 hold2
    | release w i hw =>
      intro hc
      obtain ⟨ih1, ih2⟩ := ih hc
      constructor
      · intro w' i' hw'
        rcases getElem?_set_cases hw' with ⟨-, heq⟩ | ⟨hww, hold⟩
        · cases heq
        · have hold' := ih1 w' i' hold
          have hii : i ≠ i' := by
            intro hieq
            subst hieq
            exact hww (ih2 w w' i hw hold)
          rw [List.getElem?_set_ne hii]
          exact hold'
      · intro w1 w2 i' hh1 hh2
        rcases getElem?_set_cases hh1 with ⟨-, heq⟩ | ⟨-, hold1⟩
        · cases heq
        · rcases getElem?_set_cases hh2 with ⟨-, heq⟩ | ⟨-, hold2⟩
          · cases heq
          · exact ih2 w1 w2 i' hold1 hold2
    | coordExit hc1 =>
      intro hc
      cases hc
    | coordForceRelease hc1 =>
      intro hc
      cases hc

/-- C9 counterexample: an interleaving reachable in the code violates the
claim.  Worker 0 acquires proxy lock 0 and is still streaming through that
endpoint; worker 1 passes its entry stop-check and is scanning for a free
lock; the user sets the stop flag; the dispatch loop exits and its
`finally` (downloader.py lines 427-429) force-releases lock 0 even though
worker 0 still holds it; worker 1 then finds lock 0 free and acquires it.
Both workers now occupy endpoint 0's critical section simultaneously. -/
theorem c9_counterexample :
    LockReachable (initLockSys 1 2) raceState ∧ ¬ mutualExclusion raceState := by
  constructor
  · have r0 : LockReachable (initLockSys 1 2) (initLockSys 1 2) :=
      LockReachable.refl
    have r1 := LockReachable.step r0 (LockStep.entryGo _ 0 rfl rfl)
    have r2 := LockReachable.step r1 (LockStep.acquire _ 0 0 rfl rfl)
    have r3 := LockReachable.step r2 (LockStep.entryGo _ 1 rfl rfl)
    have r4 := LockReachable.step r3 (LockStep.cancel _)
    have r5 := LockReachable.step r4 (LockStep.coordExit _ rfl)
    have r6 := LockReachable.step r5 (LockStep.coordForceRelease _ rfl)
    have r7 := LockReachable.step r6 (LockStep.acquire _ 1 0 rfl rfl)
    exact r7
  · intro h
    have h01 := h 0 1 0 rfl rfl
    exact absurd h01 (by decide)

/-- C9 amended: during the dispatch phase — at every moment before the
coordinator leaves its loop for the cancellation/termination cleanup — at
most one worker holds any given proxy endpoint's lock: `threading.Lock`
acquisition only succeeds on an unheld lock and each worker releases only
the lock it acquired.  The guarantee ends when the coordinator's `finally`
force-releases locks still held by running workers, after which a second
worker can enter the same endpoint's critical section
(`c9_counterexample`). -/
theorem c9_mutual_exclusion_amended (nLocks nWorkers : ℕ) (s : LockSys)
    (h : LockReachable (initLockSys nLocks nWorkers) s)
    (hc : s.coord = CPhase.looping) : mutualExclusion s :=
  (lockSys_inv nLocks nWorkers s h hc).2

/-- C9 amended witness: the dispatch-phase state in which worker 0 holds
proxy lock 0 and worker 1 is still at its entry check is reachable, and
mutual exclusion holds there. -/
theorem c9_mutual_exclusion_amended_witness :
    mutualExclusion ⟨false, [true], [WPhase.holding 0, WPhase.entry], CPhase.looping⟩ := by
  have r0 : LockReachable (initLockSys 1 2) (initLockSys 1 2) :=
    LockReachable.refl
  have r1 := LockReachable.step r0 (LockStep.entryGo _ 0 rfl rfl)
  have r2 := LockReachable.step r1 (LockStep.acquire _ 0 0 rfl rfl)
  exact c9_mutual_exclusion_amended 1 2 _ r2 rfl

end K2S
